import Mathlib

/-!
Shallow embedding of the Quick-Notes core (src/types.ts, src/storage.ts,
src/services/notesService.ts, src/services/authService.ts).

Modelling conventions:
* Timestamps (`createdAt`, `updatedAt`) are natural-number instants.  The
  source stores ISO-8601 strings produced by `new Date().toISOString()` and
  orders them via `new Date(s).getTime()`; the numeric instant order is the
  same order.
* `uuid` generation is modelled by passing the freshly generated identifier
  (`freshId` / `freshToken`) as an explicit argument; uniqueness of uuids
  becomes an explicit freshness hypothesis where a claim needs it.
* The JavaScript `Map` of each store is an association list with `Map.set`
  semantics: an existing key is overwritten in place, a new key is appended,
  and iteration follows that order.
* `undefined`-able fields are `Option`; JS string falsiness (`!title`,
  `body || ''`) is translated explicitly at each use site.
-/

namespace QuickNotes

/-- Note record (src/types.ts `Note`). -/
structure Note where
  id : String
  userId : String
  title : String
  body : String
  createdAt : Nat
  updatedAt : Option Nat := none
deriving Repr, DecidableEq

/-- src/types.ts `CreateNoteDto`.  The TS type declares `title : string`, but
the runtime value comes from unvalidated JSON and `validateTitle` explicitly
handles `undefined`, so both fields are `Option` here. -/
structure CreateNoteDto where
  title : Option String
  body : Option String
deriving Repr, DecidableEq

/-- src/types.ts `UpdateNoteDto`: both fields optional. -/
structure UpdateNoteDto where
  title : Option String
  body : Option String
deriving Repr, DecidableEq

/-- src/storage.ts `Storage`: the in-memory note map (keyed by `Note.id`) and
token map (token → userId), each as an insertion-ordered association list. -/
structure Storage where
  notes : List Note
  tokens : List (String × String)
deriving Repr, DecidableEq

/-- JS `Map.set` on the notes map: overwrite the entry with the same id in
place, otherwise append. -/
def setNote : List Note → Note → List Note
  | [], n => [n]
  | m :: ms, n => if m.id = n.id then n :: ms else m :: setNote ms n

/-- src/storage.ts `saveNote`. -/
def Storage.saveNote (st : Storage) (n : Note) : Storage :=
  { st with notes := setNote st.notes n }

/-- src/storage.ts `getNote`: `Map.get`. -/
def Storage.getNote (st : Storage) (id : String) : Option Note :=
  st.notes.find? (fun m => m.id == id)

/-- src/storage.ts `deleteNote`: `Map.delete` removes the entry keyed by
`id` (at most one, since the map is keyed by id). -/
def Storage.deleteNote (st : Storage) (id : String) : Storage :=
  { st with notes := st.notes.filter (fun m => m.id != id) }

/-- Comparator of src/storage.ts `getNotesByUser`'s sort: `b.createdAt`
before `a.createdAt` descending, i.e. `a` may precede `b` iff
`b.createdAt ≤ a.createdAt`. -/
def createdGE (a b : Note) : Prop :=
  b.createdAt ≤ a.createdAt

instance : DecidableRel createdGE :=
  fun _ _ => Nat.decLe _ _

instance : IsTotal Note createdGE :=
  ⟨fun a b => Nat.le_total b.createdAt a.createdAt⟩

instance : IsTrans Note createdGE :=
  ⟨fun _ _ _ h1 h2 => Nat.le_trans h2 h1⟩

/-- src/storage.ts `getNotesByUser`: collect the user's notes in iteration
order, then sort by `createdAt` descending (the engine's stable sort is
modelled by stable insertion sort). -/
def Storage.getNotesByUser (st : Storage) (userId : String) : List Note :=
  List.insertionSort createdGE (st.notes.filter (fun n => n.userId == userId))

/-- JS `Map.set` on the token map. -/
def setToken : List (String × String) → String → String → List (String × String)
  | [], t, u => [(t, u)]
  | p :: ps, t, u => if p.1 = t then (t, u) :: ps else p :: setToken ps t u

/-- src/storage.ts `saveToken`. -/
def Storage.saveToken (st : Storage) (token userId : String) : Storage :=
  { st with tokens := setToken st.tokens token userId }

/-- src/storage.ts `getUserIdByToken`: `Map.get`. -/
def Storage.getUserIdByToken (st : Storage) (token : String) : Option String :=
  (st.tokens.find? (fun p => p.1 == token)).map Prod.snd

/-- Result of `createNote`: `{ note?, error? }` in the source, where exactly
one field is set. -/
inductive CreateResult
  | ok (note : Note)
  | error (msg : String)
deriving Repr, DecidableEq

/-- Result of `updateNote`: `{ note?, error?, notFound?, forbidden? }` in the
source, where exactly one field is set. -/
inductive UpdateResult
  | ok (note : Note)
  | validationError (msg : String)
  | notFound
  | forbidden
deriving Repr, DecidableEq

/-- Result of `deleteNote`: `{ success?, notFound?, forbidden? }` in the
source, where exactly one field is set. -/
inductive DeleteResult
  | success
  | notFound
  | forbidden
deriving Repr, DecidableEq

/-- JavaScript `String.prototype.trim`: strip leading and trailing
whitespace.  (Defined over the character list so that it reduces in the
kernel; Lean's own `String.trim` is definitionally opaque.) -/
def jsTrim (s : String) : String :=
  ⟨((s.data.dropWhile Char.isWhitespace).reverse.dropWhile Char.isWhitespace).reverse⟩

/-- src/services/notesService.ts `validateTitle`.  `!title` is true for
`undefined` and for the empty string; then the trimmed title is checked for
emptiness and for the 80-character cap. -/
def NotesService.validateTitle : Option String → Option String
  | none => some "Title is required"
  | some t =>
    if t = "" then some "Title is required"
    else if (jsTrim t).length = 0 then some "Title is required"
    else if (jsTrim t).length > 80 then some "Title must not exceed 80 characters"
    else none

/-- src/services/notesService.ts `validateBody`: only a present body longer
than 500 characters is rejected. -/
def NotesService.validateBody : Option String → Option String
  | some b => if b.length > 500 then some "Body must not exceed 500 characters" else none
  | none => none

/-- src/services/notesService.ts `createNote`.  `freshId` stands for
`note_${uuidv4()}` and `now` for `new Date().toISOString()`.
`dto.body || ''` coincides with `dto.body.getD ""` because the only falsy
string is the empty string. -/
def NotesService.createNote (st : Storage) (userId : String) (dto : CreateNoteDto)
    (freshId : String) (now : Nat) : CreateResult × Storage :=
  match NotesService.validateTitle dto.title with
  | some e => (.error e, st)
  | none =>
    match NotesService.validateBody dto.body with
    | some e => (.error e, st)
    | none =>
      let note : Note :=
        { id := freshId
          userId := userId
          title := jsTrim (dto.title.getD "")
          body := dto.body.getD ""
          createdAt := now
          updatedAt := none }
      (.ok note, st.saveNote note)

/-- src/services/notesService.ts `getUserNotes`: a pure read, returned
together with the (unchanged) store to make absence of mutation explicit. -/
def NotesService.getUserNotes (st : Storage) (userId : String) : List Note × Storage :=
  (st.getNotesByUser userId, st)

/-- src/services/notesService.ts `getNote`: a pure read. -/
def NotesService.getNote (st : Storage) (noteId : String) : Option Note × Storage :=
  (st.getNote noteId, st)

/-- src/services/notesService.ts `updateNote`: lookup, ownership check,
no-fields check, title validation (if supplied), body validation (if
supplied), then overwrite with trimmed title / raw body and `updatedAt`. -/
def NotesService.updateNote (st : Storage) (noteId userId : String) (dto : UpdateNoteDto)
    (now : Nat) : UpdateResult × Storage :=
  match st.getNote noteId with
  | none => (.notFound, st)
  | some note =>
    if note.userId ≠ userId then (.forbidden, st)
    else if dto.title = none ∧ dto.body = none then
      (.validationError "No updatable fields provided", st)
    else
      match (match dto.title with
             | some t => NotesService.validateTitle (some t)
             | none => none) with
      | some e => (.validationError e, st)
      | none =>
        match (match dto.body with
               | some b => NotesService.validateBody (some b)
               | none => none) with
        | some e => (.validationError e, st)
        | none =>
          let updated : Note :=
            { note with
              title := (match dto.title with | some t => jsTrim t | none => note.title)
              body := (match dto.body with | some b => b | none => note.body)
              updatedAt := some now }
          (.ok updated, st.saveNote updated)

/-- src/services/notesService.ts `deleteNote`: lookup, ownership check, then
removal from the store. -/
def NotesService.deleteNote (st : Storage) (noteId userId : String) :
    DeleteResult × Storage :=
  match st.getNote noteId with
  | none => (.notFound, st)
  | some note =>
    if note.userId ≠ userId then (.forbidden, st)
    else (.success, st.deleteNote noteId)

/-- src/services/authService.ts `generateToken`: `freshToken` stands for
`fake_${uuidv4()}`; the (token → userId) pair is recorded and the token
returned. -/
def AuthService.generateToken (st : Storage) (userId : String) (freshToken : String) :
    String × Storage :=
  (freshToken, st.saveToken freshToken userId)

/-- src/services/authService.ts `validateToken`: `userId || null` maps both
a missing entry and an empty-string userId to `null`. -/
def AuthService.validateToken (st : Storage) (token : String) : Option String :=
  match st.getUserIdByToken token with
  | some u => if u = "" then none else some u
  | none => none

/-! ### Helper lemmas about the stores -/

/-- Lookup after `Map.set` on the note map: the written key reads back the
written note, every other key is unaffected. -/
theorem find?_setNote (ms : List Note) (n : Note) (id : String) :
    (setNote ms n).find? (fun m => m.id == id) =
      if n.id = id then some n else ms.find? (fun m => m.id == id) := by
  induction ms with
  | nil =>
    by_cases h : n.id = id
    · have h1 : (n.id == id) = true := by simp [h]
      simp [setNote, List.find?, h, h1]
    · have h1 : (n.id == id) = false := by simp [h]
      simp [setNote, List.find?, h, h1]
  | cons m ms ih =>
    by_cases hm : m.id = n.id
    · by_cases h : n.id = id
      · have h1 : (n.id == id) = true := by simp [h]
        simp [setNote, hm, List.find?, h, h1]
      · have h1 : (n.id == id) = false := by simp [h]
        have hm' : (m.id == id) = false := by simp [hm]; exact h
        simp [setNote, hm, List.find?, h, h1, hm']
    · by_cases h : m.id = id
      · have hn : ¬ (n.id = id) := fun hh => hm (h.trans hh.symm)
        have h1 : (n.id == id) = false := by simp [hn]
        have h2 : (m.id == id) = true := by simp [h]
        simp [setNote, hm, List.find?, hn, h1, h2]
      · have h2 : (m.id == id) = false := by simp [h]
        by_cases hn : n.id = id
        · have h1 : (n.id == id) = true := by simp [hn]
          simp [setNote, hm, h, List.find?, hn, h1, h2, ih]
        · have h1 : (n.id == id) = false := by simp [hn]
          simp [setNote, hm, h, List.find?, hn, h1, h2, ih]

theorem Storage.getNote_saveNote (st : Storage) (n : Note) (id : String) :
    (st.saveNote n).getNote id = if n.id = id then some n else st.getNote id :=
  find?_setNote st.notes n id

/-- A successful lookup returns a note carrying the looked-up id. -/
theorem Storage.getNote_id (st : Storage) (id : String) (n : Note)
    (h : st.getNote id = some n) : n.id = id := by
  have := List.find?_some h
  simpa using this

/-- JS `Map.set` with a key absent from the map appends the new entry. -/
theorem setNote_of_fresh (ms : List Note) (n : Note)
    (h : ∀ m ∈ ms, m.id ≠ n.id) : setNote ms n = ms ++ [n] := by
  induction ms with
  | nil => simp [setNote]
  | cons m ms ih =>
    have hm : ¬ (m.id = n.id) := h m (List.mem_cons_self m ms)
    simp [setNote, hm]
    exact ih fun m' hm' => h m' (List.mem_cons_of_mem m hm')

/-- After `Map.delete`, the deleted key reads back nothing. -/
theorem Storage.getNote_deleteNote_self (st : Storage) (id : String) :
    (st.deleteNote id).getNote id = none := by
  rw [Storage.getNote, List.find?_eq_none]
  intro m hm
  have := (List.mem_filter.mp hm).2
  simp only [bne_iff_ne, ne_eq] at this
  simp [this]

/-- JS `Map.delete` does not touch other keys. -/
theorem Storage.getNote_deleteNote_other (st : Storage) (id id2 : String)
    (h : id2 ≠ id) : (st.deleteNote id).getNote id2 = st.getNote id2 := by
  rw [Storage.getNote, Storage.getNote]
  show (st.notes.filter (fun m => m.id != id)).find? (fun m => m.id == id2) = _
  induction st.notes with
  | nil => rfl
  | cons m ms ih =>
    by_cases hm : m.id = id
    · have hb : (m.id != id) = false := by simp [hm]
      have hne : (m.id == id2) = false := by
        have : ¬ (m.id = id2) := fun hh => h (hm.symm.trans hh).symm
        simp [this]
      simp [List.filter, List.find?, hb, hne, ih]
    · have hb : (m.id != id) = true := by simp [hm]
      by_cases h2 : m.id = id2
      · have h2b : (m.id == id2) = true := by simp [h2]
        simp [List.filter, List.find?, hb, h2b]
      · have h2b : (m.id == id2) = false := by simp [h2]
        simp [List.filter, List.find?, hb, h2b, ih]

/-- Lookup after `Map.set` on the token map. -/
theorem find?_setToken (ts : List (String × String)) (t u : String) (t2 : String) :
    (setToken ts t u).find? (fun p => p.1 == t2) =
      if t = t2 then some (t, u) else ts.find? (fun p => p.1 == t2) := by
  induction ts with
  | nil =>
    by_cases h : t = t2
    · have h1 : (t == t2) = true := by simp [h]
      simp [setToken, List.find?, h, h1]
    · have h1 : (t == t2) = false := by simp [h]
      simp [setToken, List.find?, h, h1]
  | cons p ps ih =>
    by_cases hp : p.1 = t
    · by_cases h : t = t2
      · have h1 : (t == t2) = true := by simp [h]
        simp [setToken, hp, List.find?, h, h1]
      · have h1 : (t == t2) = false := by simp [h]
        have hp' : (p.1 == t2) = false := by simp [hp]; exact h
        simp [setToken, hp, List.find?, h, h1, hp']
    · by_cases h : p.1 = t2
      · have ht : ¬ (t = t2) := fun hh => hp (h.trans hh.symm)
        have h1 : (t == t2) = false := by simp [ht]
        have h2 : (p.1 == t2) = true := by simp [h]
        simp [setToken, hp, List.find?, ht, h1, h2]
      · have h2 : (p.1 == t2) = false := by simp [h]
        by_cases ht : t = t2
        · subst ht
          simp [setToken, hp, h, List.find?, h2, ih]
        · have h1 : (t == t2) = false := by simp [ht]
          simp [setToken, hp, h, List.find?, ht, h1, h2, ih]

theorem Storage.getUserIdByToken_saveToken (st : Storage) (t u t2 : String) :
    (st.saveToken t u).getUserIdByToken t2 =
      if t = t2 then some u else st.getUserIdByToken t2 := by
  rw [Storage.getUserIdByToken, Storage.saveToken]
  show ((setToken st.tokens t u).find? (fun p => p.1 == t2)).map Prod.snd = _
  rw [find?_setToken]
  by_cases h : t = t2 <;> simp [h, Storage.getUserIdByToken]

/-- A string has length zero exactly when it is empty. -/
theorem string_length_zero_iff (s : String) : s.length = 0 ↔ s = "" := by
  constructor
  · intro h
    exact String.ext (List.length_eq_zero.mp h)
  · intro h
    cases h
    rfl

/-! ### Spec-side descriptions (for the refinement claims C1, C2) -/

/-- The error component of a create result. -/
def createErrOf : CreateResult → Option String
  | .ok _ => none
  | .error m => some m

/-- The failure outcomes of update, as the spec names them. -/
inductive UpdateFailure
  | notFound
  | forbidden
  | validation (msg : String)
deriving Repr, DecidableEq

/-- The failure component of an update result. -/
def updateErrOf : UpdateResult → Option UpdateFailure
  | .ok _ => none
  | .validationError m => some (.validation m)
  | .notFound => some .notFound
  | .forbidden => some .forbidden

/-- Spec-side statement of create's validation (claim C2's words): title is
validated before body and the first failure wins; a missing, empty, or
whitespace-only title gives "Title is required"; a trimmed title longer than
80 gives "Title must not exceed 80 characters"; a present body whose raw
length exceeds 500 gives "Body must not exceed 500 characters". -/
def specCreateError (title body : Option String) : Option String :=
  match title with
  | none => some "Title is required"
  | some t =>
    if jsTrim t = "" then some "Title is required"
    else if (jsTrim t).length > 80 then some "Title must not exceed 80 characters"
    else
      match body with
      | some b =>
        if b.length > 500 then some "Body must not exceed 500 characters" else none
      | none => none

/-- Spec-side statement of update's failure order (claim C1's words): the
first applicable failure in the fixed order notFound, forbidden,
no-updatable-fields, supplied-but-invalid title, supplied-but-invalid
body. -/
def specUpdateError (st : Storage) (noteId userId : String) (dto : UpdateNoteDto) :
    Option UpdateFailure :=
  match st.getNote noteId with
  | none => some .notFound
  | some note =>
    if note.userId ≠ userId then some .forbidden
    else if dto.title = none ∧ dto.body = none then
      some (.validation "No updatable fields provided")
    else
      match (match dto.title with
             | some t => NotesService.validateTitle (some t)
             | none => none) with
      | some e => some (.validation e)
      | none =>
        match (match dto.body with
               | some b => NotesService.validateBody (some b)
               | none => none) with
        | some e => some (.validation e)
        | none => none

/-! ### Claim theorems -/

/-- C2: for every call to create, title is validated before body and the
first failure wins, with exactly the messages "Title is required" (missing,
empty or whitespace-only title), "Title must not exceed 80 characters"
(trimmed length over 80) and "Body must not exceed 500 characters" (present
body with raw length over 500); when both fields are invalid the title error
is reported. -/
theorem create_validation_order (st : Storage) (userId : String) (dto : CreateNoteDto)
    (freshId : String) (now : Nat) :
    createErrOf (NotesService.createNote st userId dto freshId now).1 =
      specCreateError dto.title dto.body := by
  rcases dto with ⟨title, body⟩
  rw [NotesService.createNote, specCreateError.eq_def]
  cases title with
  | none => rfl
  | some t =>
    by_cases htr : jsTrim t = ""
    · have hlen : (jsTrim t).length = 0 := by rw [htr]; rfl
      by_cases h0 : t = ""
      · have hemp : jsTrim "" = "" := rfl
        simp [NotesService.validateTitle, h0, htr, hemp, createErrOf]
      · simp [NotesService.validateTitle, h0, hlen, htr, createErrOf]
    · have hlen : ¬ (jsTrim t).length = 0 := fun hh => htr ((string_length_zero_iff _).mp hh)
      have h0 : ¬ t = "" := fun hh => htr (by rw [hh]; rfl)
      by_cases h80 : (jsTrim t).length > 80
      · simp [NotesService.validateTitle, h0, hlen, htr, h80, createErrOf]
      · cases body with
        | none =>
          simp [NotesService.validateTitle, NotesService.validateBody,
            h0, hlen, htr, h80, createErrOf]
        | some b =>
          by_cases hb : b.length > 500
          · simp [NotesService.validateTitle, NotesService.validateBody,
              h0, hlen, htr, h80, hb, createErrOf]
          · simp [NotesService.validateTitle, NotesService.validateBody,
              h0, hlen, htr, h80, hb, createErrOf]

/-- C1: for every call to update, exactly the first applicable failure in
the fixed order notFound, forbidden, "No updatable fields provided",
supplied-but-invalid title, supplied-but-invalid body is reported; in
particular ownership is checked before any field validation. -/
theorem update_error_order (st : Storage) (noteId userId : String) (dto : UpdateNoteDto)
    (now : Nat) :
    updateErrOf (NotesService.updateNote st noteId userId dto now).1 =
      specUpdateError st noteId userId dto := by
  rw [NotesService.updateNote, specUpdateError.eq_def]
  cases st.getNote noteId with
  | none => rfl
  | some note =>
    by_cases hown : note.userId ≠ userId
    · simp only [if_pos hown]
      rfl
    · simp only [if_neg hown]
      by_cases hfields : dto.title = none ∧ dto.body = none
      · simp only [if_pos hfields]
        rfl
      · simp only [if_neg hfields]
        cases ht : (match dto.title with
                    | some t => NotesService.validateTitle (some t)
                    | none => none) with
        | some e => rfl
        | none =>
          cases hb : (match dto.body with
                      | some b => NotesService.validateBody (some b)
                      | none => none) with
          | some e => rfl
          | none => rfl

/-- C3: list returns a permutation of the owner-filtered store contents
(hence all and only the notes owned by the user), sorted by creation
timestamp descending, and does not mutate the store. -/
theorem list_owner_sorted_pure (st : Storage) (u : String) :
    ((NotesService.getUserNotes st u).1).Perm
        (st.notes.filter (fun n => n.userId == u))
    ∧ (∀ n : Note, n ∈ (NotesService.getUserNotes st u).1 ↔
        (n ∈ st.notes ∧ n.userId = u))
    ∧ List.Sorted createdGE (NotesService.getUserNotes st u).1
    ∧ (NotesService.getUserNotes st u).2 = st := by
  refine ⟨List.perm_insertionSort _ _, ?_, List.sorted_insertionSort _ _, rfl⟩
  intro n
  show n ∈ List.insertionSort createdGE (st.notes.filter (fun n => n.userId == u)) ↔ _
  rw [List.mem_insertionSort, List.mem_filter]
  simp

/-- C4: issuing a token for a non-empty userId and immediately resolving
the returned token yields that same userId. -/
theorem issue_then_resolve (st : Storage) (userId freshToken : String)
    (h : userId ≠ "") :
    AuthService.validateToken (AuthService.generateToken st userId freshToken).2
      (AuthService.generateToken st userId freshToken).1 = some userId := by
  show AuthService.validateToken (st.saveToken freshToken userId) freshToken = some userId
  have hl := Storage.getUserIdByToken_saveToken st freshToken userId freshToken
  rw [if_pos rfl] at hl
  simp [AuthService.validateToken, hl, h]

theorem issue_then_resolve_witness :
    AuthService.validateToken
        (AuthService.generateToken ⟨[], []⟩ "alice" "tok1").2
        (AuthService.generateToken ⟨[], []⟩ "alice" "tok1").1 = some "alice" :=
  issue_then_resolve ⟨[], []⟩ "alice" "tok1" (by decide)

/-- A supplied blank title (trims to empty) always fails validation with
"Title is required". -/
theorem validateTitle_blank (t : String) (h : jsTrim t = "") :
    NotesService.validateTitle (some t) = some "Title is required" := by
  rw [NotesService.validateTitle]
  by_cases h0 : t = ""
  · simp [h0]
  · have hlen : (jsTrim t).length = 0 := by rw [h]; rfl
    simp [h0, hlen]

/-- C5: in update, a supplied empty or whitespace-only title is rejected
with "Title is required" and the store is left unchanged, whereas an
omitted title leaves the existing title untouched: supplied-but-blank and
not-supplied are never conflated. -/
theorem update_blank_title_vs_omitted (st : Storage) (noteId userId : String)
    (note : Note) (now : Nat) (t b : String)
    (hfind : st.getNote noteId = some note) (hown : note.userId = userId)
    (hblank : jsTrim t = "") (hb : b.length ≤ 500) :
    NotesService.updateNote st noteId userId ⟨some t, some b⟩ now
        = (.validationError "Title is required", st)
    ∧ (NotesService.updateNote st noteId userId ⟨none, some b⟩ now).1
        = .ok { note with body := b, updatedAt := some now } := by
  have hownb : ¬ (note.userId ≠ userId) := fun hh => hh hown
  constructor
  · simp only [NotesService.updateNote, hfind]
    simp [hownb, validateTitle_blank t hblank]
  · simp only [NotesService.updateNote, hfind]
    simp [hownb, NotesService.validateBody, Nat.not_lt.mpr hb]

theorem update_blank_title_vs_omitted_witness :
    NotesService.updateNote ⟨[⟨"n1", "alice", "Shop", "milk", 1, none⟩], []⟩ "n1" "alice"
        ⟨some " ", some "x"⟩ 2
      = (.validationError "Title is required",
         ⟨[⟨"n1", "alice", "Shop", "milk", 1, none⟩], []⟩)
    ∧ (NotesService.updateNote ⟨[⟨"n1", "alice", "Shop", "milk", 1, none⟩], []⟩ "n1" "alice"
        ⟨none, some "x"⟩ 2).1
      = .ok ⟨"n1", "alice", "Shop", "x", 1, some 2⟩ :=
  update_blank_title_vs_omitted ⟨[⟨"n1", "alice", "Shop", "milk", 1, none⟩], []⟩ "n1" "alice"
    ⟨"n1", "alice", "Shop", "milk", 1, none⟩ 2 " " "x" rfl rfl (by decide) (by decide)

/-- C6: a successful create returns exactly the record it stores — fresh
id, owner, trimmed title, given-or-empty body, creation timestamp `now`, no
update timestamp — and the only store change is that one record added to
the note map under its fresh identifier. -/
theorem create_success_shape (st : Storage) (u t : String) (b : Option String)
    (freshId : String) (now : Nat)
    (ht : NotesService.validateTitle (some t) = none)
    (hb : NotesService.validateBody b = none)
    (hfresh : ∀ m ∈ st.notes, m.id ≠ freshId) :
    NotesService.createNote st u ⟨some t, b⟩ freshId now =
      (.ok ⟨freshId, u, jsTrim t, b.getD "", now, none⟩,
       ⟨st.notes ++ [⟨freshId, u, jsTrim t, b.getD "", now, none⟩], st.tokens⟩) := by
  rw [NotesService.createNote]
  simp only [ht, hb]
  have hset : setNote st.notes ⟨freshId, u, jsTrim t, b.getD "", now, none⟩ =
      st.notes ++ [⟨freshId, u, jsTrim t, b.getD "", now, none⟩] :=
    setNote_of_fresh _ _ hfresh
  simp [Storage.saveNote, hset]

theorem create_success_shape_witness :
    NotesService.createNote ⟨[], []⟩ "alice" ⟨some " A ", some "bb"⟩ "n9" 7 =
      (.ok ⟨"n9", "alice", "A", "bb", 7, none⟩,
       ⟨[⟨"n9", "alice", "A", "bb", 7, none⟩], []⟩) :=
  create_success_shape ⟨[], []⟩ "alice" " A " (some "bb") "n9" 7
    (by decide) (by decide) (by decide)

/-- The record produced by a successful update: trimmed supplied title or
the previous title, raw supplied body or the previous body, `updatedAt`
stamped, everything else (id, owner, creation timestamp) kept. -/
def updatedRecord (note : Note) (dto : UpdateNoteDto) (now : Nat) : Note :=
  { note with
    title := (match dto.title with | some t => jsTrim t | none => note.title)
    body := (match dto.body with | some b => b | none => note.body)
    updatedAt := some now }

/-- C7: a successful update returns exactly the overwritten record —
trimmed supplied title else previous title, raw supplied body else previous
body, update timestamp `now`, id/owner/creation timestamp unchanged — and
that record replaces the previous one in the note store. -/
theorem update_success_shape (st : Storage) (noteId userId : String) (note : Note)
    (dto : UpdateNoteDto) (now : Nat)
    (hfind : st.getNote noteId = some note) (hown : note.userId = userId)
    (hsome : ¬ (dto.title = none ∧ dto.body = none))
    (ht : ∀ t, dto.title = some t → NotesService.validateTitle (some t) = none)
    (hb : ∀ b, dto.body = some b → NotesService.validateBody (some b) = none) :
    NotesService.updateNote st noteId userId dto now =
      (.ok (updatedRecord note dto now), st.saveNote (updatedRecord note dto now))
    ∧ (st.saveNote (updatedRecord note dto now)).getNote noteId
        = some (updatedRecord note dto now) := by
  have hownb : ¬ (note.userId ≠ userId) := fun hh => hh hown
  have hid : (updatedRecord note dto now).id = noteId := by
    show note.id = noteId
    exact Storage.getNote_id st noteId note hfind
  constructor
  · rcases dto with ⟨tOpt, bOpt⟩
    cases tOpt with
    | none =>
      cases bOpt with
      | none => exact absurd ⟨rfl, rfl⟩ hsome
      | some bb =>
        simp only [NotesService.updateNote, hfind]
        simp [hownb, hb bb rfl, updatedRecord]
    | some tt =>
      cases bOpt with
      | none =>
        simp only [NotesService.updateNote, hfind]
        simp [hownb, ht tt rfl, updatedRecord]
      | some bb =>
        simp only [NotesService.updateNote, hfind]
        simp [hownb, ht tt rfl, hb bb rfl, updatedRecord]
  · rw [Storage.getNote_saveNote, if_pos hid]

theorem update_success_shape_witness :
    NotesService.updateNote ⟨[⟨"n1", "alice", "Shop", "milk", 1, none⟩], []⟩ "n1" "alice"
        ⟨some " List ", some "milk,eggs"⟩ 5
      = (.ok ⟨"n1", "alice", "List", "milk,eggs", 1, some 5⟩,
         ⟨[⟨"n1", "alice", "List", "milk,eggs", 1, some 5⟩], []⟩)
    ∧ (Storage.saveNote ⟨[⟨"n1", "alice", "Shop", "milk", 1, none⟩], []⟩
          ⟨"n1", "alice", "List", "milk,eggs", 1, some 5⟩).getNote "n1"
      = some ⟨"n1", "alice", "List", "milk,eggs", 1, some 5⟩ :=
  update_success_shape ⟨[⟨"n1", "alice", "Shop", "milk", 1, none⟩], []⟩ "n1" "alice"
    ⟨"n1", "alice", "Shop", "milk", 1, none⟩ ⟨some " List ", some "milk,eggs"⟩ 5
    rfl rfl (by simp)
    (fun t h => by cases h; decide) (fun b h => by cases h; decide)

/-- Whether an update result is the success outcome. -/
def UpdateResult.isOk : UpdateResult → Bool
  | .ok _ => true
  | _ => false

/-- Frame helper: an update that does not succeed returns the store
unchanged. -/
theorem updateNote_frame (st : Storage) (noteId userId : String) (dto : UpdateNoteDto)
    (now : Nat) (h : ((NotesService.updateNote st noteId userId dto now).1).isOk = false) :
    (NotesService.updateNote st noteId userId dto now).2 = st := by
  rw [NotesService.updateNote] at h ⊢
  rcases hg : st.getNote noteId with _ | note
  · simp only [hg]
  · simp only [hg] at h ⊢
    by_cases hu : note.userId ≠ userId
    · simp only [if_pos hu]
    · simp only [if_neg hu] at h ⊢
      by_cases hf : dto.title = none ∧ dto.body = none
      · simp only [if_pos hf]
      · simp only [if_neg hf] at h ⊢
        rcases hte : (match dto.title with
                      | some t => NotesService.validateTitle (some t)
                      | none => none) with _ | e
        · simp only [hte] at h ⊢
          rcases hbe : (match dto.body with
                        | some b => NotesService.validateBody (some b)
                        | none => none) with _ | e
          · simp only [hbe, UpdateResult.isOk] at h
            exact absurd h (by decide)
          · simp only [hbe]
        · simp only [hte]

/-- Frame helper: a delete that does not succeed returns the store
unchanged. -/
theorem deleteNote_frame (st : Storage) (noteId userId : String)
    (h : (NotesService.deleteNote st noteId userId).1 ≠ .success) :
    (NotesService.deleteNote st noteId userId).2 = st := by
  rw [NotesService.deleteNote] at h ⊢
  rcases hg : st.getNote noteId with _ | note
  · simp only [hg]
  · simp only [hg] at h ⊢
    by_cases hu : note.userId ≠ userId
    · simp only [if_pos hu]
    · simp only [if_neg hu] at h
      exact absurd rfl h

/-- C8: update and delete by a non-owner on an existing note both return
forbidden with the store untouched; more generally, every update or delete
that does not succeed (notFound, forbidden or a validation error) leaves
the store exactly as it was. -/
theorem failures_leave_store_unchanged (st : Storage) (noteId userId : String)
    (dto : UpdateNoteDto) (now : Nat) (note : Note)
    (hfind : st.getNote noteId = some note) (hdiff : note.userId ≠ userId) :
    (NotesService.updateNote st noteId userId dto now = (.forbidden, st)
      ∧ NotesService.deleteNote st noteId userId = (.forbidden, st))
    ∧ (∀ (st2 : Storage) (id2 u2 : String) (dto2 : UpdateNoteDto) (now2 : Nat),
        ((NotesService.updateNote st2 id2 u2 dto2 now2).1).isOk = false →
        (NotesService.updateNote st2 id2 u2 dto2 now2).2 = st2)
    ∧ (∀ (st2 : Storage) (id2 u2 : String),
        (NotesService.deleteNote st2 id2 u2).1 ≠ .success →
        (NotesService.deleteNote st2 id2 u2).2 = st2) := by
  refine ⟨⟨?_, ?_⟩, updateNote_frame, deleteNote_frame⟩
  · rw [NotesService.updateNote]
    simp only [hfind, if_pos hdiff]
  · rw [NotesService.deleteNote]
    simp only [hfind, if_pos hdiff]

theorem failures_leave_store_unchanged_witness :
    (NotesService.updateNote ⟨[⟨"n1", "alice", "Shop", "milk", 1, none⟩], []⟩ "n1" "bob"
        ⟨some "New", none⟩ 2
      = (.forbidden, ⟨[⟨"n1", "alice", "Shop", "milk", 1, none⟩], []⟩)
      ∧ NotesService.deleteNote ⟨[⟨"n1", "alice", "Shop", "milk", 1, none⟩], []⟩ "n1" "bob"
      = (.forbidden, ⟨[⟨"n1", "alice", "Shop", "milk", 1, none⟩], []⟩))
    ∧ (∀ (st2 : Storage) (id2 u2 : String) (dto2 : UpdateNoteDto) (now2 : Nat),
        ((NotesService.updateNote st2 id2 u2 dto2 now2).1).isOk = false →
        (NotesService.updateNote st2 id2 u2 dto2 now2).2 = st2)
    ∧ (∀ (st2 : Storage) (id2 u2 : String),
        (NotesService.deleteNote st2 id2 u2).1 ≠ .success →
        (NotesService.deleteNote st2 id2 u2).2 = st2) :=
  failures_leave_store_unchanged ⟨[⟨"n1", "alice", "Shop", "milk", 1, none⟩], []⟩ "n1" "bob"
    ⟨some "New", none⟩ 2 ⟨"n1", "alice", "Shop", "milk", 1, none⟩ rfl (by decide)

/-- One core operation, for stating temporal properties over operation
sequences. -/
inductive Op
  | createOp (u : String) (dto : CreateNoteDto) (freshId : String) (now : Nat)
  | listOp (u : String)
  | getOp (noteId : String)
  | updateOp (noteId u : String) (dto : UpdateNoteDto) (now : Nat)
  | deleteOp (noteId u : String)
deriving Repr

/-- The store after running one core operation. -/
def applyOp (st : Storage) : Op → Storage
  | .createOp u dto fid now => (NotesService.createNote st u dto fid now).2
  | .listOp u => (NotesService.getUserNotes st u).2
  | .getOp nid => (NotesService.getNote st nid).2
  | .updateOp nid u dto now => (NotesService.updateNote st nid u dto now).2
  | .deleteOp nid u => (NotesService.deleteNote st nid u).2

/-- The operation does not allocate `noteId` as a fresh create id (uuid
freshness: a deleted id is never re-issued). -/
def avoidsId (noteId : String) : Op → Prop
  | .createOp _ _ fid _ => fid ≠ noteId
  | _ => True

/-- Update on an id absent from the store: notFound, store unchanged. -/
theorem updateNote_of_absent (st : Storage) (noteId u2 : String) (dto : UpdateNoteDto)
    (now : Nat) (habs : st.getNote noteId = none) :
    NotesService.updateNote st noteId u2 dto now = (.notFound, st) := by
  rw [NotesService.updateNote, habs]

/-- Delete on an id absent from the store: notFound, store unchanged. -/
theorem deleteNote_of_absent (st : Storage) (noteId u2 : String)
    (habs : st.getNote noteId = none) :
    NotesService.deleteNote st noteId u2 = (.notFound, st) := by
  rw [NotesService.deleteNote, habs]

/-- Absence of an id from the note store is preserved by every operation
that does not create under that id. -/
theorem getNote_none_applyOp (st : Storage) (noteId : String) (op : Op)
    (habs : st.getNote noteId = none) (hav : avoidsId noteId op) :
    (applyOp st op).getNote noteId = none := by
  cases op with
  | createOp u dto fid now =>
    have hfid : fid ≠ noteId := hav
    rw [applyOp, NotesService.createNote]
    rcases NotesService.validateTitle dto.title with _ | e
    · rcases NotesService.validateBody dto.body with _ | e
      · show (st.saveNote _).getNote noteId = none
        rw [Storage.getNote_saveNote]
        simp only [if_neg hfid]
        exact habs
      · exact habs
    · exact habs
  | listOp u => exact habs
  | getOp nid => exact habs
  | updateOp nid u dto now =>
    rw [applyOp, NotesService.updateNote]
    rcases hg : st.getNote nid with _ | note2
    · exact habs
    · have hid2 : note2.id = nid := Storage.getNote_id st nid note2 hg
      have hne : nid ≠ noteId := by
        intro hh
        rw [hh] at hg
        rw [hg] at habs
        exact Option.noConfusion habs
      by_cases hu : note2.userId ≠ u
      · simp only [if_pos hu]
        exact habs
      · simp only [if_neg hu]
        by_cases hf : dto.title = none ∧ dto.body = none
        · simp only [if_pos hf]
          exact habs
        · simp only [if_neg hf]
          rcases hte : (match dto.title with
                  | some t => NotesService.validateTitle (some t)
                  | none => none) with _ | e
          · simp only [hte]
            rcases hbe : (match dto.body with
                    | some b => NotesService.validateBody (some b)
                    | none => none) with _ | e
            · simp only [hbe]
              show (st.saveNote _).getNote noteId = none
              rw [Storage.getNote_saveNote]
              have : ¬ (note2.id = noteId) := by
                rw [hid2]
                exact hne
              simp only [if_neg this]
              exact habs
            · simp only [hbe]
              exact habs
          · simp only [hte]
            exact habs
  | deleteOp nid u =>
    rw [applyOp, NotesService.deleteNote]
    rcases hg : st.getNote nid with _ | note2
    · exact habs
    · by_cases hu : note2.userId ≠ u
      · simp only [if_pos hu]
        exact habs
      · simp only [if_neg hu]
        by_cases hid : noteId = nid
        · rw [hid]
          exact Storage.getNote_deleteNote_self st nid
        · rw [Storage.getNote_deleteNote_other st nid noteId hid]
          exact habs

/-- Absence of an id is preserved by any sequence of operations avoiding
that id. -/
theorem getNote_none_foldl (noteId : String) (ops : List Op) (st : Storage)
    (habs : st.getNote noteId = none) (hav : ∀ op ∈ ops, avoidsId noteId op) :
    (ops.foldl applyOp st).getNote noteId = none := by
  induction ops generalizing st with
  | nil => exact habs
  | cons op ops ih =>
    exact ih (applyOp st op)
      (getNote_none_applyOp st noteId op habs (hav op (List.mem_cons_self op ops)))
      (fun op' h' => hav op' (List.mem_cons_of_mem op h'))

/-- C9: a delete by the owner succeeds and the deleted state is absorbing:
the id then resolves to nothing, and after any further sequence of
operations none of which re-allocates that id, update and delete on it
still return notFound and leave the store unchanged; likewise update and
delete on an id absent from the store return notFound. -/
theorem delete_absorbing (st : Storage) (noteId userId : String) (note : Note)
    (hfind : st.getNote noteId = some note) (hown : note.userId = userId) :
    (NotesService.deleteNote st noteId userId).1 = .success
    ∧ ((NotesService.deleteNote st noteId userId).2).getNote noteId = none
    ∧ (∀ ops : List Op, (∀ op ∈ ops, avoidsId noteId op) →
        ∀ (u2 : String) (dto : UpdateNoteDto) (now2 : Nat),
          NotesService.updateNote
              (ops.foldl applyOp (NotesService.deleteNote st noteId userId).2)
              noteId u2 dto now2
            = (.notFound, ops.foldl applyOp (NotesService.deleteNote st noteId userId).2)
          ∧ NotesService.deleteNote
              (ops.foldl applyOp (NotesService.deleteNote st noteId userId).2) noteId u2
            = (.notFound, ops.foldl applyOp (NotesService.deleteNote st noteId userId).2))
    ∧ (∀ (st2 : Storage) (id2 u2 : String) (dto : UpdateNoteDto) (now2 : Nat),
        st2.getNote id2 = none →
          NotesService.updateNote st2 id2 u2 dto now2 = (.notFound, st2)
          ∧ NotesService.deleteNote st2 id2 u2 = (.notFound, st2)) := by
  have hownb : ¬ (note.userId ≠ userId) := fun hh => hh hown
  have hsucc : NotesService.deleteNote st noteId userId
      = (.success, st.deleteNote noteId) := by
    rw [NotesService.deleteNote, hfind]
    simp only [if_neg hownb]
  have habs : ((NotesService.deleteNote st noteId userId).2).getNote noteId = none := by
    rw [hsucc]
    exact Storage.getNote_deleteNote_self st noteId
  refine ⟨by rw [hsucc], habs, ?_, ?_⟩
  · intro ops hav u2 dto now2
    have habs2 := getNote_none_foldl noteId ops _ habs hav
    exact ⟨updateNote_of_absent _ noteId u2 dto now2 habs2,
           deleteNote_of_absent _ noteId u2 habs2⟩
  · intro st2 id2 u2 dto now2 habs2
    exact ⟨updateNote_of_absent st2 id2 u2 dto now2 habs2,
           deleteNote_of_absent st2 id2 u2 habs2⟩

theorem delete_absorbing_witness :
    (NotesService.deleteNote ⟨[⟨"n1", "alice", "Shop", "milk", 1, none⟩], []⟩ "n1" "alice").1
      = .success
    ∧ ((NotesService.deleteNote ⟨[⟨"n1", "alice", "Shop", "milk", 1, none⟩], []⟩
          "n1" "alice").2).getNote "n1" = none
    ∧ (∀ ops : List Op, (∀ op ∈ ops, avoidsId "n1" op) →
        ∀ (u2 : String) (dto : UpdateNoteDto) (now2 : Nat),
          NotesService.updateNote
              (ops.foldl applyOp
                (NotesService.deleteNote ⟨[⟨"n1", "alice", "Shop", "milk", 1, none⟩], []⟩
                  "n1" "alice").2) "n1" u2 dto now2
            = (.notFound,
               ops.foldl applyOp
                (NotesService.deleteNote ⟨[⟨"n1", "alice", "Shop", "milk", 1, none⟩], []⟩
                  "n1" "alice").2)
          ∧ NotesService.deleteNote
              (ops.foldl applyOp
                (NotesService.deleteNote ⟨[⟨"n1", "alice", "Shop", "milk", 1, none⟩], []⟩
                  "n1" "alice").2) "n1" u2
            = (.notFound,
               ops.foldl applyOp
                (NotesService.deleteNote ⟨[⟨"n1", "alice", "Shop", "milk", 1, none⟩], []⟩
                  "n1" "alice").2))
    ∧ (∀ (st2 : Storage) (id2 u2 : String) (dto : UpdateNoteDto) (now2 : Nat),
        st2.getNote id2 = none →
          NotesService.updateNote st2 id2 u2 dto now2 = (.notFound, st2)
          ∧ NotesService.deleteNote st2 id2 u2 = (.notFound, st2)) :=
  delete_absorbing ⟨[⟨"n1", "alice", "Shop", "milk", 1, none⟩], []⟩ "n1" "alice"
    ⟨"n1", "alice", "Shop", "milk", 1, none⟩ rfl rfl

/-- C10: validateToken returns nothing both when the token has no entry in
the token store and when the entry maps to the empty-string user id; a
token issued via generateToken for the empty userId is recorded in the
store and yet resolves to nothing, so the caller cannot tell "token
unknown" from "token bound to empty user". -/
theorem validateToken_empty_user_conflation (st st2 st3 : Storage)
    (tok tok2 ftok : String)
    (habsent : st.getUserIdByToken tok = none)
    (hempty : st2.getUserIdByToken tok2 = some "") :
    AuthService.validateToken st tok = none
    ∧ AuthService.validateToken st2 tok2 = none
    ∧ ((AuthService.generateToken st3 "" ftok).2).getUserIdByToken
        (AuthService.generateToken st3 "" ftok).1 = some ""
    ∧ AuthService.validateToken (AuthService.generateToken st3 "" ftok).2
        (AuthService.generateToken st3 "" ftok).1 = none := by
  have hst3 : ((AuthService.generateToken st3 "" ftok).2).getUserIdByToken
      (AuthService.generateToken st3 "" ftok).1 = some "" := by
    show (st3.saveToken ftok "").getUserIdByToken ftok = some ""
    rw [Storage.getUserIdByToken_saveToken, if_pos rfl]
  refine ⟨?_, ?_, hst3, ?_⟩
  · simp [AuthService.validateToken, habsent]
  · simp [AuthService.validateToken, hempty]
  · simp [AuthService.validateToken, hst3]

theorem validateToken_empty_user_conflation_witness :
    AuthService.validateToken ⟨[], []⟩ "tokX" = none
    ∧ AuthService.validateToken ⟨[], [("tokY", "")]⟩ "tokY" = none
    ∧ ((AuthService.generateToken ⟨[], []⟩ "" "tokZ").2).getUserIdByToken
        (AuthService.generateToken ⟨[], []⟩ "" "tokZ").1 = some ""
    ∧ AuthService.validateToken (AuthService.generateToken ⟨[], []⟩ "" "tokZ").2
        (AuthService.generateToken ⟨[], []⟩ "" "tokZ").1 = none :=
  validateToken_empty_user_conflation ⟨[], []⟩ ⟨[], [("tokY", "")]⟩ ⟨[], []⟩
    "tokX" "tokY" "tokZ" rfl rfl

end QuickNotes
